import Mathlib

/-!
# Verification of the soss conversion core

A shallow embedding of the conversion-dispatch framework, the container
conversion policy, the resource pool (`src/packages/core/include/is/utils/Convert.hpp`)
and the string-template engine (`src/packages/core/src/runtime/StringTemplate.cpp`),
together with theorems settling the specification claims.

Conventions of the embedding:
* machine `size_t` arithmetic is modelled over `Nat` with explicit wrapping
  at `2 ^ 64` where the C++ value can wrap;
* `char` values are modelled as `Int` bit patterns in `[-128, 128)`, the
  stored reflective payload of an 8-bit field is its bit pattern, a `Nat`
  below `256`;
* C++ `std::vector` / fixed arrays / reflective sequences are modelled as
  `List`s; the C++ `_queue.back()` of the resource pool is the head of the
  modelled list;
* throwing C++ code is modelled with `Except` / explicit outcome types, so
  an error discards any partially built result by construction;
* the `while` loop of the template parser is modelled with explicit fuel,
  because on some inputs the C++ loop does not terminate (this is exactly
  what one of the claims is about).
-/

namespace Soss

/-! ## Primitive conversion: `Convert<Type>` for arithmetic/string types

`Convert<Type>::from_xtype_field` reads `from.value<native_type>()`;
`Convert<Type>::to_xtype_field` writes `to.value<native_type>(from)`.
The external xtypes field is modelled as a cell storing a value of the
native type. -/

/-- Model of a reflective (`DynamicData`) field holding a primitive or
string payload of native type `α`: `value<T>()` / `value<T>(v)` are the
projection and the update of the stored payload. -/
structure XField (α : Type) where
  value : α
  deriving DecidableEq

namespace Convert

/-- Source `Convert<Type>::from_xtype_field`: `to = from.value<native_type>()`. -/
def from_xtype_field {α : Type} (f : XField α) : α :=
  f.value

/-- Source `Convert<Type>::to_xtype_field`: `to.value<native_type>(from)`. -/
def to_xtype_field {α : Type} (v : α) : XField α :=
  ⟨v⟩

end Convert

/-! ## `CharConvert`: the narrow-character special case

`rosidl` schemas may declare the same semantic `char` field either as
`UINT_8_TYPE` or as a (signed) character/int8 kind, so both conversion
directions inspect `type().kind()` and branch. -/

/-- The reflective kinds relevant to `CharConvert`'s branch: the
`UINT_8_TYPE` kind tested explicitly, and the signed 8-bit kind handled
by the `else` branch. -/
inductive Char8Kind where
  | uint8Type
  | int8Type
  deriving DecidableEq

/-- Model of a reflective 8-bit field: its declared kind plus the stored
8-bit bit pattern (a `Nat` below `256`). -/
structure Char8Field where
  kind : Char8Kind
  byte : Nat
  deriving DecidableEq

/-- Cast `static_cast<uint8_t>(c)` on a `char` value: the bit pattern. -/
def castUInt8OfChar (c : Int) : Nat :=
  (c % 256).toNat

/-- Cast `static_cast<char>(b)` on a `uint8_t` value: reinterpret the bit
pattern as a signed 8-bit value. -/
def castCharOfUInt8 (b : Nat) : Int :=
  if b % 256 < 128 then ((b % 256 : Nat) : Int) else ((b % 256 : Nat) : Int) - 256

/-- xtypes `to.value<uint8_t>(x)` on an 8-bit field: store the pattern. -/
def setUInt8Value (f : Char8Field) (x : Nat) : Char8Field :=
  { f with byte := x % 256 }

/-- xtypes `to.value<char>(c)` on an 8-bit field: store the bit pattern of
the character. -/
def setCharValue (f : Char8Field) (c : Int) : Char8Field :=
  { f with byte := (c % 256).toNat }

/-- xtypes `from.value<uint8_t>()`: the stored pattern, as unsigned. -/
def getUInt8Value (f : Char8Field) : Nat :=
  f.byte % 256

/-- xtypes `from.value<char>()`: the stored pattern, as signed 8-bit. -/
def getCharValue (f : Char8Field) : Int :=
  castCharOfUInt8 f.byte

namespace CharConvert

/-- Source `CharConvert::from_xtype_field`: if the field kind is `UINT_8_TYPE`,
read `value<uint8_t>()` and `static_cast` it to `char`; otherwise read
`value<char>()` directly. -/
def from_xtype_field (f : Char8Field) : Int :=
  if f.kind = Char8Kind.uint8Type then
    castCharOfUInt8 (getUInt8Value f)
  else
    getCharValue f

/-- Source `CharConvert::to_xtype_field`: if the destination kind is
`UINT_8_TYPE`, write `value<uint8_t>(static_cast<uint8_t>(from))`;
otherwise write `value<char>(from)`. -/
def to_xtype_field (c : Int) (f : Char8Field) : Char8Field :=
  if f.kind = Char8Kind.uint8Type then
    setUInt8Value f (castUInt8OfChar c)
  else
    setCharValue f c

end CharConvert

/-! ## `MessageConvert`: compound types via registered function pairs -/

namespace MessageConvert

/-- Source `MessageConvert<Type, _from_xtype, _to_xtype>::from_xtype_field`:
delegate to the registered `(*_from_xtype)` function. -/
def from_xtype_field {α β : Type} (fromFn : α → β) (x : α) : β :=
  fromFn x

/-- Source `MessageConvert<Type, _from_xtype, _to_xtype>::to_xtype_field`:
delegate to the registered `(*_to_xtype)` function. -/
def to_xtype_field {α β : Type} (toFn : β → α) (v : β) : α :=
  toFn v

end MessageConvert

/-! ## `ContainerConvert`: element-wise container conversion

Containers (native vectors, native fixed arrays, reflective sequences)
are modelled as `List`s.  `resize` on a resizable container keeps the
first `n` existing elements and default-fills new slots; `container_resize`
on a fixed array does nothing.  The element-write loop
`for (i = 0; i < N; ++i) dst[i] = conv(src[i])` is `writeFirstN`. -/

/-- Operation `resize(n)` of a resizable container: truncate or grow with
default-constructed elements. -/
def containerResize {α : Type} (l : List α) (n : Nat) (dflt : α) : List α :=
  l.take n ++ List.replicate (n - l.length) dflt

/-- The element loop of `ContainerConvert`: overwrite slot `i` of `dst`
with the conversion of `src[i]`, for `i < n`; slots past `n` (and slots
with no corresponding source element) keep their old contents. -/
def writeFirstN {α β : Type} (conv : α → β) : List α → Nat → List β → List β
  | _, 0, dst => dst
  | [], _ + 1, dst => dst
  | _ :: _, _ + 1, [] => []
  | a :: src, n + 1, _ :: dst => conv a :: writeFirstN conv src n dst

namespace ContainerConvert

/-- Source `ContainerConvert::to_xtype_field`: `N = min(from.size(), UpperBound)`;
`to.resize(N)` on the reflective sequence, then convert elements `0..N-1`
with the element converter (`Convert<ElementType>::to_xtype_field`). -/
def to_xtype_field {α β : Type} (elemToX : β → α) (src : List β)
    (upperBound : Nat) (dst : List α) (dflt : α) : List α :=
  let N := min src.length upperBound
  writeFirstN elemToX src N (containerResize dst N dflt)

/-- Source `ContainerConvert::from_xtype_field` for a resizable native container
(the `container_resize` overload that calls `vector.resize(size)`):
`N = min(from.size(), UpperBound)`; resize the native destination to `N`,
then convert elements `0..N-1`. -/
def from_xtype_field_vector {α β : Type} (elemFromX : α → β) (src : List α)
    (upperBound : Nat) (dst : List β) (dflt : β) : List β :=
  let N := min src.length upperBound
  writeFirstN elemFromX src N (containerResize dst N dflt)

/-- Source `ContainerConvert::from_xtype_field` for a fixed-size native array
(the `container_resize` overload that does nothing):
`N = min(from.size(), UpperBound)`; convert elements `0..N-1` in place,
never resizing.  In the `Convert<Array<ElementType, N>>` instantiation the
`UpperBound` template argument equals the array size. -/
def from_xtype_field_array {α β : Type} (elemFromX : α → β) (src : List α)
    (upperBound : Nat) (dst : List β) : List β :=
  writeFirstN elemFromX src (min src.length upperBound) dst

end ContainerConvert

/-! ## `ResourcePool` -/

/-- Model of `ResourcePool<Resource, initializerT>`: the `_queue` vector
(head of the list = `back()` of the vector, i.e. the most recently pushed
element) and the current `_initializer` factory. -/
structure ResourcePool (ρ : Type) where
  queue : List ρ
  initializer : Unit → ρ

namespace ResourcePool

/-- The `ResourcePool` constructor: eagerly create `initial_depth`
instances with the registered factory. -/
def make {ρ : Type} (factory : Unit → ρ) (initial_depth : Nat) : ResourcePool ρ :=
  { queue := List.replicate initial_depth (factory ()), initializer := factory }

/-- Source `ResourcePool::setInitializer`. -/
def setInitializer {ρ : Type} (p : ResourcePool ρ) (factory : Unit → ρ) :
    ResourcePool ρ :=
  { p with initializer := factory }

/-- Source `ResourcePool::pop`: if `_queue` is empty, return a fresh instance
from the current `_initializer`, leaving the store untouched; otherwise
remove and return `_queue.back()`. -/
def pop {ρ : Type} (p : ResourcePool ρ) : ρ × ResourcePool ρ :=
  match p.queue with
  | [] => (p.initializer (), p)
  | r :: rest => (r, { p with queue := rest })

/-- Source `ResourcePool::recycle`: unconditionally `emplace_back` the returned
resource. -/
def recycle {ρ : Type} (p : ResourcePool ρ) (r : ρ) : ResourcePool ρ :=
  { p with queue := r :: p.queue }

end ResourcePool

/-- Model of a `std::shared_ptr<Resource>`, as far as the pool can observe
it: a payload together with its current reference count
(`use_count()`).  `SharedResourcePool<Resource>` is
`ResourcePool<std::shared_ptr<Resource>, &std::make_shared<Resource>>`,
i.e. a `ResourcePool (SharedPtr ρ)`. -/
structure SharedPtr (ρ : Type) where
  useCount : Nat
  val : ρ
  deriving DecidableEq

/-! ## The string-template engine

`StringTemplate::Implementation` scans the template string with
`std::string::find` / `substr` over `size_t` indices.  Strings are
modelled as `List Char` for the scan; components and field names are
rebuilt as `String`s.  The value of `std::string::npos` is `2 ^ 64 - 1`
and `size_t` subtraction wraps at `2 ^ 64`; both are modelled
explicitly because the constructor's unmatched-brace check depends on
them. -/

/-- Value of `std::string::npos` for a 64-bit `size_t`. -/
def npos : Nat := 2 ^ 64 - 1

/-- Operation `s.find(c, pos)`: index of the first occurrence of `c` at or after
`pos`, or none (C++ `npos`) when there is no occurrence. -/
def findFrom (s : List Char) (c : Char) (pos : Nat) : Option Nat :=
  ((s.drop pos).findIdx? (fun x => x = c)).map (fun i => i + pos)

/-- Operation `s.substr(pos, count)` for `pos ≤ s.length`: the characters from
`pos` on, clamped to at most `count` of them. -/
def substr (s : List Char) (pos count : Nat) : List Char :=
  (s.drop pos).take (min count (s.length - pos))

/-- Outcome of running the `StringTemplate::Implementation` constructor:
the parsed `_components` / `_substitutions` on success,
`InvalidTemplateFormat` thrown, or fuel exhaustion of the model of the
`while` loop (the C++ loop not having terminated within the given number
of iterations). -/
inductive ParseOutcome where
  | ok (components : List String) (substitutions : List (Nat × String))
  | invalidFormat
  | diverge
  deriving DecidableEq

/-- The `while (start < template_string.size())` loop of
`StringTemplate::Implementation`'s constructor, including the final
trailing-literal push after the loop.  `last_end` is the C++ `last_end`
cursor, `comps`/`subs` the accumulated `_components`/`_substitutions`
(`_substitutions` is a `std::map` ordered by key; insertion happens in
strictly increasing key order, so the insertion-ordered list coincides
with the map's iteration order).  `fuel` bounds the number of loop
iterations the model will execute.

One iteration, faithfully to the C++:
* `start := template_string.find('\x7b', last_end)`; exit the loop when
  there is none;
* push the literal `substr(last_end, start - last_end)`;
* `last_end := find('\x7d', start) + 1`, where a failed `find` yields
  `npos` and `npos + 1` wraps to `0` in `size_t` arithmetic;
* the dead guard `if (last_end == npos) throw InvalidTemplateFormat`;
* `substitution_string := substr(start + 1, last_end - start - 2)`, the
  count computed with wrapping `size_t` subtraction;
* `if (substitution_string.substr(0, 8) != "message.") throw`;
* record `_substitutions[_components.size()] = substitution_string.substr(8)`
  and push the empty placeholder component. -/
def parseLoop (s : List Char) : Nat → Nat → List String → List (Nat × String) →
    ParseOutcome
  | 0, _, _, _ => ParseOutcome.diverge
  | fuel + 1, last_end, comps, subs =>
    match findFrom s '\x7b' last_end with
    | none =>
      ParseOutcome.ok
        (if last_end < s.length then
          comps ++ [String.mk (substr s last_end (s.length - last_end))]
        else comps)
        subs
    | some start =>
      let comps1 := comps ++ [String.mk (substr s last_end (start - last_end))]
      let newEnd := match findFrom s '\x7d' start with
        | some j => j + 1
        | none => (npos + 1) % 2 ^ 64
      if newEnd = npos then ParseOutcome.invalidFormat
      else
        let count := (newEnd + 2 ^ 64 - start - 2) % 2 ^ 64
        let substitution := substr s (start + 1) count
        if substr substitution 0 8 ≠ "message.".toList then
          ParseOutcome.invalidFormat
        else
          parseLoop s fuel newEnd (comps1 ++ [""])
            (subs ++ [(comps1.length, String.mk (substitution.drop 8))])

/-- Run the constructor's parse with enough fuel for every terminating
run: each loop iteration strictly advances `last_end` by at least two
except when the `size_t` wrap has reset it to `0`, a state the loop can
never leave, so `s.length + 1` iterations suffice for any run that
terminates at all. -/
def parseTemplate (s : List Char) : ParseOutcome :=
  parseLoop s (s.length + 1) 0 [] []

/-! ### The message model and `compute_string` -/

/-- A reflective sub-value as the template engine consumes it (handed to
the pluggable `FieldToString` converter). -/
inductive FieldValue where
  | num (n : Int)
  | str (s : String)
  deriving DecidableEq

/-- Model of an xtypes `DynamicData` message of aggregation type: named
members in declaration order.  `type().has_member(name)` is definedness
of `lookup`, `message[name]` its value. -/
structure Message where
  fields : List (String × FieldValue)

/-- Member lookup: `has_member` + `operator[]`. -/
def Message.lookup (msg : Message) (name : String) : Option FieldValue :=
  (msg.fields.find? (fun p => p.1 = name)).map (fun p => p.2)

/-- Modelled from the spec: the `FieldToString` converter class is part
of this repository but not under `src/` (only its construction from the
usage-details string and its `details()` / `to_string(data, field_name)`
uses appear here).  Per the spec it stores the usage-context description,
exposes it via `details()`, and converts a reflective field to a string
via a pluggable per-kind conversion, modelled as an opaque function
argument. -/
structure FieldToString where
  details : String
  to_string : FieldValue → String → String

/-- The error thrown by `compute_string`:
`UnavailableMessageField(field_name, _converter.details())`. -/
inductive TemplateError where
  | unavailableMessageField (field_name : String) (details : String)
  deriving DecidableEq

/-- The substitution walk of `compute_string`: components from index `1`
upward, with the not-yet-consumed tail of the (key-ordered)
`_substitutions` map playing the role of `substitute_it`.  At a component
index equal to the next substitution key, look the field up —
missing field throws `UnavailableMessageField` (discarding `acc`, the
partial `result`), present field appends
`_converter.to_string(message[field], field)`; any other component is
appended verbatim. -/
def computeLoop (conv : FieldToString) (msg : Message) :
    List String → Nat → List (Nat × String) → String →
    Except TemplateError String
  | [], _, _, acc => Except.ok acc
  | comp :: rest, i, subs, acc =>
    match subs with
    | (k, field_name) :: subsRest =>
      if k = i then
        match msg.lookup field_name with
        | none =>
          Except.error (TemplateError.unavailableMessageField field_name conv.details)
        | some v =>
          computeLoop conv msg rest (i + 1) subsRest (acc ++ conv.to_string v field_name)
      else
        computeLoop conv msg rest (i + 1) subs (acc ++ comp)
    | [] => computeLoop conv msg rest (i + 1) [] (acc ++ comp)

/-- Source `StringTemplate::Implementation::compute_string`: start from
`_components[0]` (or the empty string when there are no components) and
walk the remaining components from index `1`. -/
def computeString (comps : List String) (subs : List (Nat × String))
    (conv : FieldToString) (msg : Message) : Except TemplateError String :=
  computeLoop conv msg (comps.drop 1) 1 subs (comps.headD "")

/-- A successfully constructed `StringTemplate::Implementation`. -/
structure TemplateImpl where
  converter : FieldToString
  components : List String
  substitutions : List (Nat × String)

/-- Outcome of the `StringTemplate` constructor. -/
inductive TemplateResult where
  | ok (t : TemplateImpl)
  | invalidFormat (template_string : String) (details : String)
  | diverge

/-- The `StringTemplate` constructor: build the `FieldToString` converter
from the usage-details string (its pluggable per-kind conversion behavior
is the external argument `to_string`), then parse the template; an
`InvalidTemplateFormat` throw produces no template object. -/
def StringTemplate.make (template_string usage_details : String)
    (to_string : FieldValue → String → String) : TemplateResult :=
  match parseTemplate template_string.toList with
  | ParseOutcome.ok comps subs =>
    TemplateResult.ok ⟨⟨usage_details, to_string⟩, comps, subs⟩
  | ParseOutcome.invalidFormat => TemplateResult.invalidFormat template_string usage_details
  | ParseOutcome.diverge => TemplateResult.diverge

/-- Source `StringTemplate::compute_string`. -/
def TemplateImpl.compute_string (t : TemplateImpl) (msg : Message) :
    Except TemplateError String :=
  computeString t.components t.substitutions t.converter msg

/-! ## Helper lemmas about the container conversion loop -/

theorem containerResize_length {α : Type} (l : List α) (n : Nat) (d : α) :
    (containerResize l n d).length = n := by
  simp only [containerResize, List.length_append, List.length_take,
    List.length_replicate]
  omega

theorem writeFirstN_length {α β : Type} (f : α → β) :
    ∀ (src : List α) (n : Nat) (dst : List β),
      (writeFirstN f src n dst).length = dst.length := by
  intro src
  induction src with
  | nil => intro n dst; cases n <;> rfl
  | cons a s ih =>
    intro n dst
    cases n with
    | zero => rfl
    | succ n =>
      cases dst with
      | nil => rfl
      | cons b d => simp [writeFirstN, ih]

theorem writeFirstN_full {α β : Type} (f : α → β) :
    ∀ (n : Nat) (src : List α) (dst : List β),
      n ≤ src.length → n = dst.length →
      writeFirstN f src n dst = (src.take n).map f := by
  intro n
  induction n with
  | zero =>
    intro src dst _ hd
    cases dst with
    | nil => cases src <;> rfl
    | cons b d => simp at hd
  | succ n ih =>
    intro src dst hs hd
    cases src with
    | nil => simp at hs
    | cons a s =>
      cases dst with
      | nil => simp at hd
      | cons b d =>
        simp only [writeFirstN, List.take_succ_cons, List.map_cons]
        exact congrArg _ (ih s d (by simpa using hs) (by simpa using hd))

theorem to_xtype_field_eq {α β : Type} (elemToX : β → α) (src : List β)
    (bound : Nat) (dst : List α) (dflt : α) :
    ContainerConvert.to_xtype_field elemToX src bound dst dflt =
      (src.take (min src.length bound)).map elemToX := by
  unfold ContainerConvert.to_xtype_field
  exact writeFirstN_full elemToX _ src _ (Nat.min_le_left _ _)
    (containerResize_length dst _ dflt).symm

theorem from_xtype_field_vector_eq {α β : Type} (elemFromX : α → β)
    (src : List α) (bound : Nat) (dst : List β) (dflt : β) :
    ContainerConvert.from_xtype_field_vector elemFromX src bound dst dflt =
      (src.take (min src.length bound)).map elemFromX := by
  unfold ContainerConvert.from_xtype_field_vector
  exact writeFirstN_full elemFromX _ src _ (Nat.min_le_left _ _)
    (containerResize_length dst _ dflt).symm

theorem writeFirstN_getElem_lt {α β : Type} (f : α → β) :
    ∀ (src : List α) (n : Nat) (dst : List β) (i : Nat),
      i < n → i < src.length → i < dst.length →
      (writeFirstN f src n dst)[i]? = src[i]?.map f := by
  intro src
  induction src with
  | nil => intro n dst i _ hs; simp at hs
  | cons a s ih =>
    intro n dst i hn hs hd
    cases n with
    | zero => omega
    | succ n =>
      cases dst with
      | nil => simp at hd
      | cons b d =>
        cases i with
        | zero => simp [writeFirstN]
        | succ i =>
          simp only [writeFirstN, List.getElem?_cons_succ]
          exact ih n d i (by omega) (by simp at hs; omega) (by simp at hd; omega)

theorem writeFirstN_getElem_ge {α β : Type} (f : α → β) :
    ∀ (src : List α) (n : Nat) (dst : List β) (i : Nat),
      n ≤ i ∨ src.length ≤ i →
      (writeFirstN f src n dst)[i]? = dst[i]? := by
  intro src
  induction src with
  | nil => intro n dst i _; cases n <;> rfl
  | cons a s ih =>
    intro n dst i h
    cases n with
    | zero => rfl
    | succ n =>
      cases dst with
      | nil => rfl
      | cons b d =>
        cases i with
        | zero => simp at h
        | succ i =>
          simp only [writeFirstN, List.getElem?_cons_succ]
          exact ih n d i (by simpa using h)

/-! ## Helper lemma for the narrow-character round trip -/

theorem char_round_trip (c : Int) (h1 : -128 ≤ c) (h2 : c < 128)
    (f : Char8Field) :
    CharConvert.from_xtype_field (CharConvert.to_xtype_field c f) = c := by
  by_cases hf : f.kind = Char8Kind.uint8Type <;>
    simp only [CharConvert.to_xtype_field, CharConvert.from_xtype_field,
      setUInt8Value, setCharValue, getUInt8Value, getCharValue,
      castUInt8OfChar, castCharOfUInt8, hf, if_true, if_false, ite_true,
      ite_false] <;>
    split <;> omega

/-! ## Claim theorems: conversion framework and resource pool -/

/-- C1. Round-trip identity: for every native value `v` of a registered
type, converting `v` into a reflective field with `to_xtype_field` and
then extracting it back with `from_xtype_field` yields a value
structurally equal to `v` — for primitive kinds (any native payload
type, strings included), for the narrow-character special case under
both reflective kinds, for compound types whose registered conversion
pair is mutually inverse, and for container types (resizable vectors
under their bound, and fixed arrays) whose element conversion round
trips. -/
theorem C1_round_trip_identity :
    (∀ (α : Type) (v : α),
      Convert.from_xtype_field (Convert.to_xtype_field v) = v)
    ∧ (∀ s : String,
      Convert.from_xtype_field (Convert.to_xtype_field s) = s)
    ∧ (∀ (c : Int) (f : Char8Field), -128 ≤ c → c < 128 →
      CharConvert.from_xtype_field (CharConvert.to_xtype_field c f) = c)
    ∧ (∀ (α β : Type) (fromFn : α → β) (toFn : β → α),
      (∀ v, fromFn (toFn v) = v) →
      ∀ v, MessageConvert.from_xtype_field fromFn
        (MessageConvert.to_xtype_field toFn v) = v)
    ∧ (∀ (α β : Type) (elemToX : β → α) (elemFromX : α → β),
      (∀ v, elemFromX (elemToX v) = v) →
      ∀ (src : List β) (bound : Nat) (dstSeq : List α) (dfltA : α)
        (dstVec : List β) (dfltB : β),
        src.length ≤ bound →
        ContainerConvert.from_xtype_field_vector elemFromX
          (ContainerConvert.to_xtype_field elemToX src bound dstSeq dfltA)
          bound dstVec dfltB = src)
    ∧ (∀ (α β : Type) (elemToX : β → α) (elemFromX : α → β),
      (∀ v, elemFromX (elemToX v) = v) →
      ∀ (src : List β) (dstSeq : List α) (dfltA : α) (dstArr : List β),
        dstArr.length = src.length →
        ContainerConvert.from_xtype_field_array elemFromX
          (ContainerConvert.to_xtype_field elemToX src src.length dstSeq dfltA)
          src.length dstArr = src) := by
  refine ⟨fun α v => rfl, fun s => rfl,
    fun c f h1 h2 => char_round_trip c h1 h2 f,
    fun α β fromFn toFn hinv v => hinv v, ?_, ?_⟩
  · intro α β elemToX elemFromX hinv src bound dstSeq dfltA dstVec dfltB hL
    have hmin : min src.length bound = src.length := Nat.min_eq_left hL
    rw [to_xtype_field_eq, hmin, List.take_length, from_xtype_field_vector_eq,
      List.length_map, hmin, ← List.length_map src elemToX, List.take_length,
      List.map_map, show elemFromX ∘ elemToX = id from funext hinv, List.map_id]
  · intro α β elemToX elemFromX hinv src dstSeq dfltA dstArr hlen
    rw [to_xtype_field_eq, Nat.min_self, List.take_length]
    unfold ContainerConvert.from_xtype_field_array
    rw [writeFirstN_full elemFromX _ _ _ (Nat.min_le_left _ _) (by simp [hlen])]
    simp only [List.length_map, Nat.min_self]
    rw [← List.length_map src elemToX, List.take_length, List.map_map,
      show elemFromX ∘ elemToX = id from funext hinv, List.map_id]

/-- Witness for C1 at concrete inputs: a primitive `Nat`, a `String`, a
negative `char` written into a `UINT_8_TYPE` field, a compound type with
an inverse registered pair, and a two-element vector within its bound. -/
theorem C1_round_trip_identity_witness :
    Convert.from_xtype_field (Convert.to_xtype_field (5 : Nat)) = 5
    ∧ Convert.from_xtype_field (Convert.to_xtype_field "hello") = "hello"
    ∧ CharConvert.from_xtype_field
        (CharConvert.to_xtype_field (-5) ⟨Char8Kind.uint8Type, 0⟩) = -5
    ∧ MessageConvert.from_xtype_field (fun n : Nat => n - 1)
        (MessageConvert.to_xtype_field (fun n : Nat => n + 1) 7) = 7
    ∧ ContainerConvert.from_xtype_field_vector (fun n : Nat => n - 1)
        (ContainerConvert.to_xtype_field (fun n : Nat => n + 1) [3, 4] 10 [] 0)
        10 [] 0 = [3, 4] :=
  ⟨C1_round_trip_identity.1 Nat 5,
    C1_round_trip_identity.2.1 "hello",
    C1_round_trip_identity.2.2.1 (-5) ⟨Char8Kind.uint8Type, 0⟩ (by decide) (by decide),
    C1_round_trip_identity.2.2.2.1 Nat Nat (fun n => n - 1) (fun n => n + 1)
      (fun v => by simp) 7,
    C1_round_trip_identity.2.2.2.2.1 Nat Nat (fun n => n + 1) (fun n => n - 1)
      (fun v => by simp) [3, 4] 10 [] 0 [] 0 (by decide)⟩

/-- C2. Bound enforcement in `ContainerConvert::to_xtype_field`: the
destination reflective sequence is resized to exactly
`N = min(L, UpperBound)` and receives the conversions of the first `N`
source elements in original order; in particular, when the bound is
smaller than the source length the result has length exactly the bound
and holds the first `bound` converted elements. -/
theorem C2_bound_enforcement {α β : Type} (elemToX : β → α) (src : List β)
    (bound : Nat) (dst : List α) (dflt : α) :
    (ContainerConvert.to_xtype_field elemToX src bound dst dflt).length =
      min src.length bound
    ∧ ContainerConvert.to_xtype_field elemToX src bound dst dflt =
      (src.take (min src.length bound)).map elemToX
    ∧ (bound < src.length →
      (ContainerConvert.to_xtype_field elemToX src bound dst dflt).length = bound
      ∧ ContainerConvert.to_xtype_field elemToX src bound dst dflt =
        (src.take bound).map elemToX) := by
  have heq := to_xtype_field_eq elemToX src bound dst dflt
  refine ⟨?_, heq, fun hlt => ?_⟩
  · rw [heq]; simp
  · have hmin : min src.length bound = bound := Nat.min_eq_right (Nat.le_of_lt hlt)
    constructor
    · rw [heq]; simp [hmin]; omega
    · rw [heq, hmin]

/-- Witness for C2: a three-element native container truncated by a
reflective sequence bound of `2`. -/
theorem C2_bound_enforcement_witness :
    (ContainerConvert.to_xtype_field (fun n : Nat => n + 1) [10, 20, 30] 2 [] 0).length = 2
    ∧ ContainerConvert.to_xtype_field (fun n : Nat => n + 1) [10, 20, 30] 2 [] 0 = [11, 21] := by
  have h := (C2_bound_enforcement (fun n : Nat => n + 1) [10, 20, 30] 2 [] 0).2.2
    (by decide)
  exact ⟨h.1, by rw [h.2]; decide⟩

/-- C3. Array immutability: `ContainerConvert::from_xtype_field` into a
fixed-size array destination never changes the destination's length; of
the slots, exactly the first `min(source length, N)` receive converted
source elements and the remaining slots keep their previous contents. -/
theorem C3_array_immutability {α β : Type} (elemFromX : α → β) (src : List α)
    (dst : List β) :
    (ContainerConvert.from_xtype_field_array elemFromX src dst.length dst).length =
      dst.length
    ∧ (∀ i, i < min src.length dst.length →
      (ContainerConvert.from_xtype_field_array elemFromX src dst.length dst)[i]? =
        src[i]?.map elemFromX)
    ∧ (∀ i, min src.length dst.length ≤ i →
      (ContainerConvert.from_xtype_field_array elemFromX src dst.length dst)[i]? =
        dst[i]?) := by
  unfold ContainerConvert.from_xtype_field_array
  refine ⟨writeFirstN_length elemFromX src _ dst, fun i hi => ?_, fun i hi => ?_⟩
  · exact writeFirstN_getElem_lt elemFromX src _ dst i hi
      (lt_of_lt_of_le hi (Nat.min_le_left _ _))
      (lt_of_lt_of_le hi (Nat.min_le_right _ _))
  · exact writeFirstN_getElem_ge elemFromX src _ dst i
      (Or.inl hi)

/-- Witness for C3: a four-element reflective source converted into a
two-slot array — the length stays `2`, slot `0` is converted, and a
one-element source into a three-slot array leaves slot `2` untouched. -/
theorem C3_array_immutability_witness :
    (ContainerConvert.from_xtype_field_array (fun n : Nat => n * 2) [1, 2, 3, 4] 2 [9, 9]).length = 2
    ∧ (ContainerConvert.from_xtype_field_array (fun n : Nat => n * 2) [1, 2, 3, 4] 2 [9, 9])[0]? = some 2
    ∧ (ContainerConvert.from_xtype_field_array (fun n : Nat => n * 2) [1] 3 [9, 9, 9])[2]? = some 9 := by
  refine ⟨?_, ?_, ?_⟩
  · simpa using (C3_array_immutability (fun n : Nat => n * 2) [1, 2, 3, 4] [9, 9]).1
  · simpa using (C3_array_immutability (fun n : Nat => n * 2) [1, 2, 3, 4] [9, 9]).2.1 0
      (by decide)
  · simpa using (C3_array_immutability (fun n : Nat => n * 2) [1] [9, 9, 9]).2.2 2
      (by decide)

/-- C7. Pool acquire contract: recycling `r` and then popping returns
exactly `r` and restores the previous pool state (LIFO); a pop on a
non-empty store removes and returns the most recently pushed instance;
a pop on an empty store returns a fresh instance built by the currently
registered factory and leaves the (empty) store unchanged. -/
theorem C7_pool_acquire {ρ : Type} (p : ResourcePool ρ) (r : ρ) :
    (p.recycle r).pop = (r, p)
    ∧ (p.queue = [] → p.pop = (p.initializer (), p))
    ∧ (∀ x rest, p.queue = x :: rest → p.pop = (x, { p with queue := rest })) := by
  refine ⟨rfl, fun h => ?_, fun x rest h => ?_⟩
  · unfold ResourcePool.pop; rw [h]
  · unfold ResourcePool.pop; rw [h]

/-- Witness for C7: an empty pool with factory `fun _ => 7` pops `7`
without touching the store, and a recycled `3` is popped back first. -/
theorem C7_pool_acquire_witness :
    (ResourcePool.pop ⟨[], fun _ => (7 : Nat)⟩) =
      ((7 : Nat), (⟨[], fun _ => (7 : Nat)⟩ : ResourcePool Nat))
    ∧ (ResourcePool.pop (ResourcePool.recycle ⟨[5], fun _ => (7 : Nat)⟩ 3)) =
      ((3 : Nat), (⟨[5], fun _ => (7 : Nat)⟩ : ResourcePool Nat)) :=
  ⟨(C7_pool_acquire (⟨[], fun _ => (7 : Nat)⟩ : ResourcePool Nat) 0).2.1 rfl,
    (C7_pool_acquire (⟨[5], fun _ => (7 : Nat)⟩ : ResourcePool Nat) 3).1⟩

/-- C8 counterexample: `ResourcePool::recycle` re-admits a shared
resource unconditionally — a `shared_ptr` whose reference count is `2`
(another holder still references it) is nevertheless placed back into
the internal store, contradicting the claim that re-admission happens
only at reference count one. -/
theorem C8_counterexample :
    (SharedPtr.mk 2 (0 : Nat)).useCount ≠ 1
    ∧ (ResourcePool.recycle ⟨[], fun _ => SharedPtr.mk 1 (0 : Nat)⟩
        (SharedPtr.mk 2 (0 : Nat))).queue = [SharedPtr.mk 2 (0 : Nat)] :=
  ⟨by decide, rfl⟩

/-- C8 amended: releasing a shared resource re-admits it to the pool's
internal store unconditionally, regardless of its reference count — the
recycled instance is always pushed onto the store. -/
theorem C8_amended_unconditional_readmission {ρ : Type}
    (p : ResourcePool (SharedPtr ρ)) (r : SharedPtr ρ) :
    (p.recycle r).queue = r :: p.queue :=
  rfl

/-- C9. Narrow-character duality: `CharConvert` branches on the concrete
reflective kind; writing an 8-bit character into a `UINT_8_TYPE` field
stores the same bit pattern as writing it into a signed 8-bit field, and
reading back from either kind returns the original character. -/
theorem C9_narrow_char_duality (c : Int) (h1 : -128 ≤ c) (h2 : c < 128)
    (fu fs : Char8Field) (hu : fu.kind = Char8Kind.uint8Type)
    (hs : fs.kind = Char8Kind.int8Type) :
    (CharConvert.to_xtype_field c fu).byte = (CharConvert.to_xtype_field c fs).byte
    ∧ CharConvert.from_xtype_field (CharConvert.to_xtype_field c fu) = c
    ∧ CharConvert.from_xtype_field (CharConvert.to_xtype_field c fs) = c := by
  refine ⟨?_, char_round_trip c h1 h2 fu, char_round_trip c h1 h2 fs⟩
  simp only [CharConvert.to_xtype_field, hu, hs, if_true, ite_true, ite_false,
    setUInt8Value, setCharValue, castUInt8OfChar]
  simp
  omega

/-- Witness for C9 at `c = -1` (bit pattern `0xFF`). -/
theorem C9_narrow_char_duality_witness :
    (CharConvert.to_xtype_field (-1) ⟨Char8Kind.uint8Type, 0⟩).byte =
      (CharConvert.to_xtype_field (-1) ⟨Char8Kind.int8Type, 0⟩).byte
    ∧ CharConvert.from_xtype_field
        (CharConvert.to_xtype_field (-1) ⟨Char8Kind.uint8Type, 0⟩) = -1
    ∧ CharConvert.from_xtype_field
        (CharConvert.to_xtype_field (-1) ⟨Char8Kind.int8Type, 0⟩) = -1 :=
  C9_narrow_char_duality (-1) (by decide) (by decide)
    ⟨Char8Kind.uint8Type, 0⟩ ⟨Char8Kind.int8Type, 0⟩ rfl rfl

/-! ## Helper lemmas for the template engine -/

/-- Walking the components from index `i` with an ascending, in-range
tail of the substitution map: if some substitution's field is missing
from the message, the walk returns the `UnavailableMessageField` error of
the first such field (in key order, i.e. left-to-right), carrying the
converter's details string; the partial accumulator is discarded. -/
theorem computeLoop_error_of_firstMissing (conv : FieldToString) (msg : Message) :
    ∀ (rest : List String) (i : Nat) (subs : List (Nat × String)) (acc : String)
      (k : Nat) (f : String),
      subs.Pairwise (fun a b => a.1 < b.1) →
      (∀ p ∈ subs, i ≤ p.1 ∧ p.1 < i + rest.length) →
      subs.find? (fun p => (msg.lookup p.2).isNone) = some (k, f) →
      computeLoop conv msg rest i subs acc =
        Except.error (TemplateError.unavailableMessageField f conv.details) := by
  intro rest
  induction rest with
  | nil =>
    intro i subs acc k f hpw hbound hfind
    cases subs with
    | nil => simp at hfind
    | cons p ps =>
      have h := hbound p (List.mem_cons_self p ps)
      simp only [List.length_nil] at h
      omega
  | cons comp rts ih =>
    intro i subs acc k f hpw hbound hfind
    cases subs with
    | nil => simp at hfind
    | cons hd srest =>
      obtain ⟨k', fn⟩ := hd
      rw [List.pairwise_cons] at hpw
      obtain ⟨hhead, htail⟩ := hpw
      by_cases hk : k' = i
      · subst hk
        cases hlook : msg.lookup fn with
        | none =>
          rw [List.find?_cons_of_pos _ (by simp [hlook])] at hfind
          have hpair : k' = k ∧ fn = f := by
            have := Option.some.inj hfind
            exact ⟨congrArg Prod.fst this, congrArg Prod.snd this⟩
          obtain ⟨rfl, rfl⟩ := hpair
          simp [computeLoop, hlook]
        | some v =>
          rw [List.find?_cons_of_neg _ (by simp [hlook])] at hfind
          simp only [computeLoop, if_pos rfl, hlook]
          exact ih (k' + 1) srest _ k f htail
            (fun q hq => by
              have h1 := hhead q hq
              have h2 := hbound q (List.mem_cons_of_mem _ hq)
              simp only [List.length_cons] at h2
              constructor <;> omega)
            hfind
      · simp only [computeLoop, if_neg hk]
        exact ih (i + 1) ((k', fn) :: srest) _ k f
          (List.pairwise_cons.mpr ⟨hhead, htail⟩)
          (fun q hq => by
            have h2 := hbound (k', fn) (List.mem_cons_self _ _)
            have h3 := hbound q hq
            simp only [List.length_cons] at h2 h3
            rcases List.mem_cons.mp hq with hq1 | hq2
            · subst hq1
              simp only [List.length_cons]
              constructor <;> omega
            · have h1 := hhead q hq2
              constructor <;> omega)
          hfind

/-- Invariant of the constructor loop: every terminating parse produces a
substitution map whose keys are strictly increasing, at least `1`, and
below the number of components (each key indexes the empty placeholder
component pushed right after it was recorded). -/
theorem parseLoop_ok_subs_invariant (s : List Char) :
    ∀ (fuel last_end : Nat) (comps : List String) (subs : List (Nat × String))
      (comps' : List String) (subs' : List (Nat × String)),
      parseLoop s fuel last_end comps subs = ParseOutcome.ok comps' subs' →
      subs.Pairwise (fun a b => a.1 < b.1) →
      (∀ p ∈ subs, 1 ≤ p.1 ∧ p.1 < comps.length) →
      subs'.Pairwise (fun a b => a.1 < b.1)
      ∧ ∀ p ∈ subs', 1 ≤ p.1 ∧ p.1 < comps'.length := by
  intro fuel
  induction fuel with
  | zero => intro last_end comps subs comps' subs' heq; simp [parseLoop] at heq
  | succ n ih =>
    intro last_end comps subs comps' subs' heq hpw hbound
    rw [parseLoop] at heq
    cases hfind : findFrom s '\x7b' last_end with
    | none =>
      rw [hfind] at heq
      simp only [ParseOutcome.ok.injEq] at heq
      obtain ⟨hc, hs⟩ := heq
      subst hs
      refine ⟨hpw, fun p hp => ?_⟩
      have h := hbound p hp
      constructor
      · exact h.1
      · rw [← hc]
        split
        · simp only [List.length_append, List.length_cons, List.length_nil]
          omega
        · exact h.2
    | some start =>
      rw [hfind] at heq
      simp only at heq
      split at heq
      · exact absurd heq (by simp)
      · split at heq
        · exact absurd heq (by simp)
        · refine ih _ _ _ _ _ heq ?_ ?_
          · rw [List.pairwise_append]
            refine ⟨hpw, List.pairwise_singleton _ _, fun a ha b hb => ?_⟩
            rw [List.mem_singleton] at hb
            subst hb
            have := (hbound a ha).2
            simp only [List.length_append, List.length_cons, List.length_nil]
            omega
          · intro p hp
            rw [List.mem_append, List.mem_singleton] at hp
            simp only [List.length_append, List.length_cons, List.length_nil]
            rcases hp with hp | hp
            · have := hbound p hp
              omega
            · subst hp
              simp only [List.length_append, List.length_cons, List.length_nil]
              omega

/-! ## Claim theorems: the string-template engine -/

/-- Claim C4 (code behavior at the claimed inputs): the template
"\x7bmessage.a" — an opening brace with no following closing brace — does
NOT fail with `InvalidTemplateFormat`: the constructor loop never
terminates on it (for every iteration budget the loop is still running),
because the unmatched-brace guard compares `find('\x7d') + 1` against
`npos` after the `+ 1` has already wrapped `npos` to `0`, and the scan
then restarts from position `0` forever.  The second claimed input,
"\x7bfoo.a\x7d" (wrong placeholder prefix), does fail with
`InvalidTemplateFormat` as claimed. -/
theorem C4_malformed_template_code_behavior :
    (∀ (fuel : Nat) (comps : List String) (subs : List (Nat × String)),
      parseLoop "\x7bmessage.a".toList fuel 0 comps subs = ParseOutcome.diverge)
    ∧ parseTemplate "\x7bmessage.a".toList = ParseOutcome.diverge
    ∧ parseTemplate "\x7bfoo.a\x7d".toList = ParseOutcome.invalidFormat := by
  have hdiv : ∀ (fuel : Nat) (comps : List String) (subs : List (Nat × String)),
      parseLoop "\x7bmessage.a".toList fuel 0 comps subs = ParseOutcome.diverge := by
    intro fuel
    induction fuel with
    | zero => intro comps subs; rfl
    | succ n ih =>
      intro comps subs
      rw [show parseLoop "\x7bmessage.a".toList (n + 1) 0 comps subs =
        parseLoop "\x7bmessage.a".toList n 0 ((comps ++ [""]) ++ [""])
          (subs ++ [((comps ++ [""]).length, "a")]) from rfl]
      exact ih _ _
  exact ⟨hdiv, hdiv _ _ _, by decide⟩

/-- Claim C5. Evaluation failure atomicity: for a successfully
constructed template and a message whose type lacks the field of some
placeholder, `compute_string` fails with `UnavailableMessageField`
carrying the field name of the first missing placeholder in key
(left-to-right) order and the usage-context description the template was
built with; the error return carries no partial string. -/
theorem C5_evaluation_failure_atomicity (template_string usage_details : String)
    (to_string : FieldValue → String → String) (t : TemplateImpl) (msg : Message)
    (k : Nat) (f : String)
    (hmk : StringTemplate.make template_string usage_details to_string =
      TemplateResult.ok t)
    (hmiss : t.substitutions.find? (fun p => (msg.lookup p.2).isNone) = some (k, f)) :
    t.compute_string msg =
      Except.error (TemplateError.unavailableMessageField f usage_details) := by
  unfold StringTemplate.make at hmk
  cases hp : parseTemplate template_string.toList with
  | ok comps subs =>
    rw [hp] at hmk
    simp only [TemplateResult.ok.injEq] at hmk
    subst hmk
    obtain ⟨hpw, hbound⟩ := parseLoop_ok_subs_invariant template_string.toList
      _ _ _ _ _ _ hp List.Pairwise.nil (by simp)
    simp only [TemplateImpl.compute_string, computeString] at hmiss ⊢
    exact computeLoop_error_of_firstMissing ⟨usage_details, to_string⟩ msg
      (comps.drop 1) 1 subs (comps.headD "") k f hpw
      (fun p hmem => by
        have h := hbound p hmem
        simp only [List.length_drop]
        omega)
      hmiss
  | invalidFormat => rw [hp] at hmk; exact absurd hmk (by simp)
  | diverge => rw [hp] at hmk; exact absurd hmk (by simp)

/-- Witness for C5: the template
"prefix \x7bmessage.a\x7d mid \x7bmessage.b\x7d suffix" evaluated against a
message that has field `a` but lacks field `b` fails with
`UnavailableMessageField "b"` carrying the usage-context string. -/
theorem C5_evaluation_failure_atomicity_witness :
    TemplateImpl.compute_string
      ⟨⟨"ctx", fun _ _ => ""⟩, ["prefix ", "", " mid ", "", " suffix"],
        [(1, "a"), (3, "b")]⟩
      ⟨[("a", FieldValue.num 42)]⟩ =
      Except.error (TemplateError.unavailableMessageField "b" "ctx") :=
  C5_evaluation_failure_atomicity
    "prefix \x7bmessage.a\x7d mid \x7bmessage.b\x7d suffix"
    "ctx" (fun _ _ => "") _ ⟨[("a", FieldValue.num 42)]⟩ 3 "b" rfl (by decide)

/-- Claim C6. Parse structure example: the template
"prefix \x7bmessage.a\x7d mid \x7bmessage.b\x7d suffix" parses into exactly
five stored components — literal "prefix ", an empty placeholder marker,
literal " mid ", an empty placeholder marker, literal " suffix" — with
the substitution map associating component position `1` with field `a`
and position `3` with field `b`. -/
theorem C6_parse_structure_example :
    parseTemplate "prefix \x7bmessage.a\x7d mid \x7bmessage.b\x7d suffix".toList =
      ParseOutcome.ok ["prefix ", "", " mid ", "", " suffix"] [(1, "a"), (3, "b")] := by
  decide

/-- Claim C10 counterexample: the empty template string contains no
opening brace, and its construction succeeds with ZERO stored segments,
not with a single literal segment as claimed. -/
theorem C10_counterexample_empty_template :
    parseTemplate "".toList = ParseOutcome.ok [] []
    ∧ ([] : List String).length ≠ 1 :=
  ⟨rfl, by decide⟩

/-- Claim C10 as amended: for every template string containing no
opening brace, construction succeeds with an empty substitution map and
a single literal segment — except for the empty template, which yields
zero segments — and `compute_string` returns the original template
string verbatim for every message value, never failing. -/
theorem C10_amended_literal_identity (s : List Char) (h : '\x7b' ∉ s) :
    parseTemplate s = ParseOutcome.ok (if s = [] then [] else [String.mk s]) []
    ∧ ∀ (conv : FieldToString) (msg : Message),
      computeString (if s = [] then [] else [String.mk s]) [] conv msg =
        Except.ok (String.mk s) := by
  have hfind : findFrom s '\x7b' 0 = none := by
    have hnone : s.findIdx? (fun x => x = '\x7b') = none :=
      List.findIdx?_eq_none_iff.mpr (fun x hx => by
        simp only [decide_eq_false_iff_not]
        intro heq
        exact h (heq ▸ hx))
    simp [findFrom, hnone]
  constructor
  · unfold parseTemplate
    rw [parseLoop, hfind]
    by_cases hs : s = []
    · subst hs; rfl
    · have hlen : 0 < s.length := List.length_pos.mpr hs
      simp only [if_pos hlen, if_neg hs]
      congr 1
      simp [substr, List.take_length]
  · intro conv msg
    by_cases hs : s = []
    · subst hs; rfl
    · simp only [if_neg hs]
      rfl

/-- Witness for amended C10: the brace-free template "hello world"
parses to one literal segment with no substitutions and evaluates to
itself against an empty message. -/
theorem C10_amended_literal_identity_witness :
    parseTemplate "hello world".toList =
      ParseOutcome.ok [String.mk "hello world".toList] []
    ∧ computeString [String.mk "hello world".toList] [] ⟨"ctx", fun _ _ => ""⟩
        ⟨[]⟩ = Except.ok (String.mk "hello world".toList) := by
  have h := C10_amended_literal_identity "hello world".toList (by decide)
  have hne : "hello world".toList ≠ [] := by decide
  rw [if_neg hne] at h
  exact ⟨h.1, h.2 ⟨"ctx", fun _ _ => ""⟩ ⟨[]⟩⟩

end Soss
